import Mathlib

/-!
Shallow embedding of `demo/image_demo.py` (mmyolo image demo script).

The script parses CLI arguments, validates flag combinations and requested
class names, loads a detector, enumerates input files, and for each file
runs inference, filters predictions by a score threshold, and dispatches to
either a labelme-annotation export or the visualizer.  We model the script's
control flow as a pure function from the parsed arguments and an abstract
environment (the external framework's behaviour: dataset classes, enumerated
files, per-file inference results, current working directory) to a trace of
observable events together with an optional fatal error.

The Python string and path helpers the script uses (`str.replace`,
`os.path.basename`, `os.path.relpath`, `os.path.splitext`, `os.path.join`,
`os.path.abspath`/`normpath`) are modelled faithfully for POSIX paths, by
structural recursion on character lists so that every definition evaluates
inside the kernel.
-/

namespace ImageDemo

/-- One predicted instance of a detection result: a class label index and a
confidence score (scores are modelled as rationals). -/
structure Pred where
  label : Nat
  score : ℚ
deriving DecidableEq

/-- The command-line arguments accepted by `parse_args` in
`demo/image_demo.py`.  `show'` stands for the `--show` flag (`show` is a
Lean keyword). -/
structure Args where
  img : String
  config : String
  checkpoint : String
  outDir : String
  device : String
  show' : Bool
  deploy : Bool
  scoreThr : ℚ
  className : Option (List String)
  toLabelme : Bool

/-- The external framework's behaviour, abstracted: the model's dataset
classes, the enumeration produced by `get_file_list`, whether the input was
a directory, the per-file inference results, and the working directory
(needed by `os.path.abspath` / `os.path.relpath`). -/
structure Env where
  cwd : String
  datasetClasses : List String
  files : List String
  isDir : Bool
  results : String → List Pred

/-- Observable events of a run of `main`, in program order. -/
inductive Event where
  | registerModules
  | initDetector (config checkpoint device : String)
  | switchToDeploy
  | mkdirOrExist (dir : String)
  | buildVisualizer
  | getFileList (img : String)
  | showDataClasses (classes : List String)
  | progressInit (n : Nat)
  | inference (file : String)
  | imread (file : String)
  | progressUpdate
  | labelmeSave (outFile : String) (preds : List Pred)
      (classFilter : Option (List String))
  | addDatasample (name : String) (preds : List Pred) (showIt : Bool)
      (outFile : Option String) (predScoreThr : ℚ)
  | printLog (msg : String)
deriving DecidableEq

/-- The outcome of a run: the trace of events performed, and the fatal
error (if any) that terminated the run. -/
structure RunResult where
  events : List Event
  error : Option String
deriving DecidableEq

/-! ### Python string primitives, on character lists -/

/-- Index of the last occurrence of a character (Python `str.rfind`,
returning `none` instead of `-1`). -/
def lastIdx (c : Char) : List Char → Option Nat
  | [] => none
  | x :: xs =>
    match lastIdx c xs with
    | some i => some (i + 1)
    | none => if x = c then some 0 else none

/-- Python `str.split(sep)` for a one-character separator. -/
def splitOnChar (c : Char) : List Char → List (List Char)
  | [] => [[]]
  | x :: xs =>
    let r := splitOnChar c xs
    if x = c then [] :: r
    else
      match r with
      | [] => [[x]]
      | y :: ys => (x :: y) :: ys

/-- `sep.join` on character lists. -/
def intercalateL (sep : List Char) : List (List Char) → List Char
  | [] => []
  | [x] => x
  | x :: y :: rest => x ++ sep ++ intercalateL sep (y :: rest)

/-- Worker for Python `str.replace` with a non-empty pattern `o :: os`:
scans left to right, replacing each non-overlapping occurrence.  The `fuel`
argument (any bound on the list length) makes the recursion structural. -/
def pyReplaceAuxL (o : Char) (os new : List Char) : Nat → List Char → List Char
  | _, [] => []
  | 0, l => l
  | fuel + 1, c :: rest =>
    if (o :: os).isPrefixOf (c :: rest) then
      new ++ pyReplaceAuxL o os new fuel (rest.drop os.length)
    else
      c :: pyReplaceAuxL o os new fuel rest

/-- Python `s.replace(old, new)` on character lists: replaces every
non-overlapping occurrence of `old`, left to right.  For the empty pattern
Python inserts `new` at every position (`"ab".replace("", "X") = "XaXbX"`). -/
def pyReplaceL (s old new : List Char) : List Char :=
  match old with
  | [] => new ++ (s.map (fun c => c :: new)).flatten
  | o :: os => pyReplaceAuxL o os new s.length s

/-- Number of positions of `s` (including the end position) at which `pat`
occurs as a substring. -/
def countOccsL (pat : List Char) : List Char → Nat
  | [] => if pat.isPrefixOf ([] : List Char) then 1 else 0
  | c :: rest =>
    (if pat.isPrefixOf (c :: rest) then 1 else 0) + countOccsL pat rest

/-- Python `s.replace(old, new)` on strings. -/
def pyReplace (s old new : String) : String :=
  ⟨pyReplaceL s.data old.data new.data⟩

/-- Number of occurrences of `pat` as a substring of `s`. -/
def countOccs (pat s : String) : Nat :=
  countOccsL pat.data s.data

/-! ### POSIX path functions used by the script -/

/-- `s.startswith(pre)`. -/
def strStartsWith (s pre : String) : Bool :=
  pre.data.isPrefixOf s.data

/-- `s.endswith(suf)`. -/
def strEndsWith (s suf : String) : Bool :=
  suf.data.isSuffixOf s.data

/-- Python `s.split('/')` on strings. -/
def splitOnSlash (s : String) : List String :=
  (splitOnChar '/' s.data).map (fun l => ⟨l⟩)

/-- `'/'.join` on strings. -/
def joinSlash (l : List String) : String :=
  ⟨intercalateL ['/'] (l.map String.data)⟩

/-- `os.path.join(a, b)` for POSIX paths (two arguments). -/
def joinPath (a b : String) : String :=
  if strStartsWith b ("/") then b
  else if a = "" ∨ strEndsWith a ("/") then a ++ b
  else a ++ "/" ++ b

/-- `os.path.basename(p)` for POSIX paths: everything after the last
slash. -/
def basename (p : String) : String :=
  match lastIdx '/' p.data with
  | none => p
  | some i => ⟨p.data.drop (i + 1)⟩

/-- `os.path.splitext(p)` on character lists: splits off the final
extension, taking care that leading dots of the basename never count as an
extension separator. -/
def splitextL (l : List Char) : List Char × List Char :=
  match lastIdx '.' l with
  | none => (l, [])
  | some d =>
    let fIdx : Nat :=
      match lastIdx '/' l with
      | none => 0
      | some si => si + 1
    if fIdx ≤ d ∧ ((l.drop fIdx).take (d - fIdx)).any (fun ch => ch ≠ '.') then
      (l.take d, l.drop d)
    else (l, [])

/-- `os.path.splitext(p)` on strings: `(root, extension)`. -/
def splitext (s : String) : String × String :=
  (⟨(splitextL s.data).1⟩, ⟨(splitextL s.data).2⟩)

/-- `os.path.normpath(p)` for POSIX paths: collapses repeated slashes,
removes `.` components and resolves `..` components lexically. -/
def normpath (p : String) : String :=
  if p = "" then "." else
  let leading : String :=
    if strStartsWith p ("//") ∧ ¬ strStartsWith p ("///") then "//"
    else if strStartsWith p ("/") then "/"
    else ""
  let comps := (splitOnSlash p).filter (fun c => c ≠ "" ∧ c ≠ ".")
  let newComps := comps.foldl
    (fun acc comp =>
      if comp ≠ ".." ∨ (leading = "" ∧ acc = []) ∨ acc.getLast? = some (".." : String) then
        acc ++ [comp]
      else if acc ≠ [] then acc.dropLast
      else acc)
    []
  let r := leading ++ joinSlash newComps
  if r = "" then "." else r

/-- `os.path.abspath(p)` for POSIX paths, with the working directory made
explicit. -/
def abspath (cwd p : String) : String :=
  normpath (if strStartsWith p ("/") then p else joinPath cwd p)

/-- Length of the longest common prefix of two component lists. -/
def commonPrefixLen : List String → List String → Nat
  | a :: as, b :: bs => if a = b then commonPrefixLen as bs + 1 else 0
  | _, _ => 0

/-- The non-empty components of a path, after `abspath`-style splitting. -/
def splitComponents (p : String) : List String :=
  (splitOnSlash p).filter (fun c => c ≠ "")

/-- `os.path.relpath(p, start)` for POSIX paths, with the working directory
made explicit (Python first applies `abspath` to both arguments). -/
def relpath (cwd p start : String) : String :=
  let pl := splitComponents (abspath cwd p)
  let sl := splitComponents (abspath cwd start)
  let i := commonPrefixLen sl pl
  let rel := List.replicate (sl.length - i) (".." : String) ++ pl.drop i
  if rel = [] then "." else joinSlash rel

/-! ### The script's `main`, as a pure trace-producing function -/

/-- The message of the `RuntimeError` raised when `--to-labelme` and
`--show` are both set (lines 50-52). -/
def flagErrMsg : String :=
  "RuntimeError: `--to-labelme` or `--show` only can choose one at the same time."

/-- The message of the `RuntimeError` raised for an unknown requested class
name (lines 85-87). -/
def classErrMsg (c : String) : String :=
  "RuntimeError: Expected args.class_name to be one of the list, but got \"" ++ c ++ "\""

/-- The error Python would raise if `out_file` were `None` when the labelme
branch dereferences it (unreachable in `main` because of the flag check). -/
def noneReplaceErr : String :=
  "AttributeError: NoneType object has no attribute replace"

/-- The first entry of `args.class_name` that is not among the model's
dataset classes, if any (the loop at lines 80-87 raises at the first such
name). -/
def firstUnknownClass (cn : Option (List String)) (classes : List String) :
    Option String :=
  match cn with
  | none => none
  | some names => names.find? (fun n => !classes.contains n)

/-- The output filename chosen for a file (lines 97-100): for a directory
input, the path relative to the input directory with slashes replaced by
underscores; otherwise the basename. -/
def filenameFor (args : Args) (env : Env) (file : String) : String :=
  if env.isDir then pyReplace (relpath env.cwd file args.img) ("/") ("_")
  else basename file

/-- `out_file` for a file (line 101): `None` when `--show` is set, else the
filename joined onto the output directory. -/
def outFileFor (args : Args) (env : Env) (file : String) : Option String :=
  if args.show' then none else some (joinPath args.outDir (filenameFor args env file))

/-- The labelme annotation path derived from an image output path
(lines 111-112): `out_file.replace(os.path.splitext(out_file)[-1], '.json')`. -/
def labelmeOut (out_file : String) : String :=
  pyReplace out_file (splitext out_file).2 (".json")

/-- One iteration of the inference loop (lines 91-125) on a single file:
the events it performs and the error, if any, it raises. -/
def processFile (args : Args) (env : Env) (file : String) :
    List Event × Option String :=
  let pre : List Event := [Event.inference file, Event.imread file, Event.progressUpdate]
  let pred_instances := (env.results file).filter (fun p => args.scoreThr < p.score)
  if args.toLabelme then
    match outFileFor args env file with
    | none => (pre, some noneReplaceErr)
    | some f =>
      (pre ++ [Event.labelmeSave (labelmeOut f) pred_instances args.className], none)
  else
    (pre ++ [Event.addDatasample (filenameFor args env file) (env.results file)
      args.show' (outFileFor args env file) args.scoreThr], none)

/-- The inference loop over the enumerated files, stopping at the first
error. -/
def runLoop (args : Args) (env : Env) : List String → List Event × Option String
  | [] => ([], none)
  | f :: fs =>
    match processFile args env f with
    | (evs, some e) => (evs, some e)
    | (evs, none) =>
      let r := runLoop args env fs
      (evs ++ r.1, r.2)

/-- The events performed between the flag check and the class-name check
(lines 54-77): module registration, model construction, optional deploy
switch, output-directory creation (skipped with `--show`), visualizer
construction and file enumeration. -/
def preEvents (args : Args) : List Event :=
  [Event.registerModules, Event.initDetector args.config args.checkpoint args.device]
  ++ (if args.deploy then [Event.switchToDeploy] else [])
  ++ (if args.show' then [] else [Event.mkdirOrExist args.outDir])
  ++ [Event.buildVisualizer, Event.getFileList args.img]

/-- The completion message printed after the loop (lines 127-133): nothing
in `--show` mode. -/
def postEvents (args : Args) (env : Env) : List Event :=
  if args.show' = false ∧ args.toLabelme = false then
    [Event.printLog ("\nResults have been saved at " ++ abspath env.cwd args.outDir)]
  else if args.toLabelme = true then
    [Event.printLog ("\nLabelme format label files had all been saved in " ++ args.outDir)]
  else []

/-- The whole of `main` (lines 47-133), as a pure function from the parsed
arguments and the external environment to the run's trace and outcome. -/
def main (args : Args) (env : Env) : RunResult :=
  if args.toLabelme && args.show' then
    { events := [], error := some flagErrMsg }
  else
    match firstUnknownClass args.className env.datasetClasses with
    | some bad =>
      { events := preEvents args ++ [Event.showDataClasses env.datasetClasses],
        error := some (classErrMsg bad) }
    | none =>
      match runLoop args env env.files with
      | (loopEvs, some e) =>
        { events := preEvents args ++ Event.progressInit env.files.length :: loopEvs,
          error := some e }
      | (loopEvs, none) =>
        { events := preEvents args
            ++ Event.progressInit env.files.length
            :: (loopEvs ++ postEvents args env),
          error := none }

/-! ### Event classifiers used by the claims -/

/-- Is this event a labelme annotation export? -/
def isLabelmeSave : Event → Bool
  | .labelmeSave _ _ _ => true
  | _ => false

/-- Is this event a visualizer invocation? -/
def isAddDatasample : Event → Bool
  | .addDatasample _ _ _ _ _ => true
  | _ => false

/-- Is this event a progress-bar update? -/
def isProgressUpdate : Event → Bool
  | .progressUpdate => true
  | _ => false

/-- Is this event a log print? -/
def isPrintLog : Event → Bool
  | .printLog _ => true
  | _ => false

/-- Is this event an output-directory creation? -/
def isMkdir : Event → Bool
  | .mkdirOrExist _ => true
  | _ => false

/-- The `out_file` argument a visualizer invocation would write to
(`none` for every other event). -/
def visOutFile : Event → Option String
  | .addDatasample _ _ _ o _ => o
  | _ => none

/-- The predictions the downstream consumer of an output event retains.
For a labelme export these are exactly the instances the script passes it.
For a visualizer invocation, modelled from the spec: the external
visualizer retains the predictions of the data sample whose score exceeds
the `pred_score_thr` it is given (the visualizer itself is outside this
repository). -/
def retainedDownstream : Event → Option (List Pred)
  | .labelmeSave _ preds _ => some preds
  | .addDatasample _ preds _ _ thr => some (preds.filter (fun p => thr < p.score))
  | _ => none

/-! ### Concrete instances used by the witnesses -/

/-- A concrete one-file environment (non-directory input). -/
def envA : Env :=
  { cwd := "/w", datasetClasses := ["cat", "dog"], files := ["a.png"],
    isDir := false, results := fun _ => [⟨0, 1⟩] }

/-- A concrete directory-input environment. -/
def envDir : Env :=
  { cwd := "/w", datasetClasses := ["cat", "dog"], files := ["imgs/a.png"],
    isDir := true, results := fun _ => [⟨0, 1⟩] }

/-- Concrete arguments: default save mode (no `--show`, no `--to-labelme`). -/
def argsSave : Args :=
  { img := "a.png", config := "cfg.py", checkpoint := "ck.pth",
    outDir := "./output", device := "cpu", show' := false, deploy := false,
    scoreThr := 0, className := none, toLabelme := false }

/-- Concrete arguments: `--show` mode. -/
def argsShowMode : Args :=
  { argsSave with show' := true }

/-- Concrete arguments: both `--show` and `--to-labelme` (invalid). -/
def argsBoth : Args :=
  { argsSave with show' := true, toLabelme := true }

/-- Concrete arguments: `--to-labelme` mode, directory input. -/
def argsLabelme : Args :=
  { argsSave with toLabelme := true, img := "imgs" }

/-- Concrete arguments: a requested class name unknown to the model. -/
def argsBadClass : Args :=
  { argsSave with className := some ["bird"] }

/-! ### Trace-shape lemmas -/

lemma processFile_labelme (args : Args) (env : Env) (f : String)
    (ht : args.toLabelme = true) (hs : args.show' = false) :
    processFile args env f =
      ([Event.inference f, Event.imread f, Event.progressUpdate,
        Event.labelmeSave (labelmeOut (joinPath args.outDir (filenameFor args env f)))
          ((env.results f).filter fun p => args.scoreThr < p.score) args.className],
       none) := by
  simp [processFile, outFileFor, ht, hs]

lemma processFile_vis (args : Args) (env : Env) (f : String)
    (ht : args.toLabelme = false) :
    processFile args env f =
      ([Event.inference f, Event.imread f, Event.progressUpdate,
        Event.addDatasample (filenameFor args env f) (env.results f)
          args.show' (outFileFor args env f) args.scoreThr],
       none) := by
  simp [processFile, ht]

lemma processFile_snd (args : Args) (env : Env) (f : String)
    (hf : (args.toLabelme && args.show') = false) :
    (processFile args env f).2 = none := by
  cases ht : args.toLabelme with
  | false => rw [processFile_vis args env f ht]
  | true =>
    cases hs : args.show' with
    | false => rw [processFile_labelme args env f ht hs]
    | true => rw [ht, hs] at hf; exact absurd hf (by simp)

lemma runLoop_eq (args : Args) (env : Env)
    (hf : (args.toLabelme && args.show') = false) (fs : List String) :
    runLoop args env fs =
      ((fs.map fun f => (processFile args env f).1).flatten, none) := by
  induction fs with
  | nil => rfl
  | cons f fs ih =>
    have h2 := processFile_snd args env f hf
    rcases hp : processFile args env f with ⟨evs, err⟩
    rw [hp] at h2
    simp only at h2
    subst h2
    simp [runLoop, hp, ih]

lemma main_eq (args : Args) (env : Env)
    (hf : (args.toLabelme && args.show') = false)
    (hc : firstUnknownClass args.className env.datasetClasses = none) :
    main args env =
      { events := preEvents args
          ++ Event.progressInit env.files.length
          :: ((env.files.map fun f => (processFile args env f).1).flatten
              ++ postEvents args env),
        error := none } := by
  simp [main, hf, hc, runLoop_eq args env hf]

lemma mem_preEvents {args : Args} {e : Event} (h : e ∈ preEvents args) :
    e = Event.registerModules ∨
    e = Event.initDetector args.config args.checkpoint args.device ∨
    e = Event.switchToDeploy ∨
    e = Event.mkdirOrExist args.outDir ∨
    e = Event.buildVisualizer ∨
    e = Event.getFileList args.img := by
  cases hd : args.deploy <;> cases hs : args.show' <;>
    simp [preEvents, hd, hs] at h <;> tauto

lemma mem_preEvents_show {args : Args} {e : Event} (hs : args.show' = true)
    (h : e ∈ preEvents args) :
    e = Event.registerModules ∨
    e = Event.initDetector args.config args.checkpoint args.device ∨
    e = Event.switchToDeploy ∨
    e = Event.buildVisualizer ∨
    e = Event.getFileList args.img := by
  cases hd : args.deploy <;> simp [preEvents, hd, hs] at h <;> tauto

lemma mem_postEvents {args : Args} {env : Env} {e : Event}
    (h : e ∈ postEvents args env) : ∃ m, e = Event.printLog m := by
  unfold postEvents at h
  split at h
  · simp at h
    exact ⟨_, h⟩
  · split at h
    · simp at h
      exact ⟨_, h⟩
    · simp at h

lemma mem_processFile {args : Args} {env : Env} {f : String} {e : Event}
    (h : e ∈ (processFile args env f).1) :
    e = Event.inference f ∨ e = Event.imread f ∨ e = Event.progressUpdate ∨
    e = Event.labelmeSave (labelmeOut (joinPath args.outDir (filenameFor args env f)))
          ((env.results f).filter fun p => args.scoreThr < p.score) args.className ∨
    e = Event.addDatasample (filenameFor args env f) (env.results f)
          args.show' (outFileFor args env f) args.scoreThr := by
  cases ht : args.toLabelme with
  | false =>
    rw [processFile_vis args env f ht] at h
    simp at h
    tauto
  | true =>
    cases hs : args.show' with
    | false =>
      rw [processFile_labelme args env f ht hs] at h
      simp at h
      tauto
    | true =>
      simp [processFile, outFileFor, ht, hs] at h
      tauto

lemma countP_flatten_const (q : Event → Bool) (c : Nat) :
    ∀ L : List (List Event), (∀ l ∈ L, l.countP q = c) →
      L.flatten.countP q = L.length * c := by
  intro L
  induction L with
  | nil => intro _; simp
  | cons x xs ih =>
    intro h
    have hx := h x (List.mem_cons_self x xs)
    have hxs := ih (fun l hl => h l (List.mem_cons_of_mem x hl))
    simp only [List.flatten_cons, List.countP_append, List.length_cons, hx, hxs]
    ring

lemma countP_main_events (q : Event → Bool) (args : Args) (env : Env)
    (hf : (args.toLabelme && args.show') = false)
    (hc : firstUnknownClass args.className env.datasetClasses = none)
    (hpre : ∀ e ∈ preEvents args, q e = false)
    (hpost : ∀ e ∈ postEvents args env, q e = false)
    (hinit : q (Event.progressInit env.files.length) = false)
    (c : Nat) (hblk : ∀ f ∈ env.files, ((processFile args env f).1).countP q = c) :
    (main args env).events.countP q = env.files.length * c := by
  rw [main_eq args env hf hc]
  have h1 : (preEvents args).countP q = 0 :=
    List.countP_eq_zero.mpr (fun e he => by rw [hpre e he]; exact Bool.false_ne_true)
  have h2 : (postEvents args env).countP q = 0 :=
    List.countP_eq_zero.mpr (fun e he => by rw [hpost e he]; exact Bool.false_ne_true)
  have h3 : ((env.files.map fun f => (processFile args env f).1).flatten).countP q
      = env.files.length * c := by
    rw [countP_flatten_const q c _
      (by intro l hl; rcases List.mem_map.mp hl with ⟨f, hfm, rfl⟩; exact hblk f hfm)]
    simp
  simp [List.countP_append, List.countP_cons, h1, h2, h3, hinit]

lemma countP_update_block (args : Args) (env : Env) (f : String) :
    ((processFile args env f).1).countP isProgressUpdate = 1 := by
  cases ht : args.toLabelme <;> cases ho : outFileFor args env f <;>
    simp [processFile, ht, ho, isProgressUpdate, List.countP_cons,
      List.countP_append, List.countP_nil]

/-! ### String lemmas for the labelme path derivation -/

lemma isPrefixOf_refl (l : List Char) : l.isPrefixOf l = true := by
  induction l with
  | nil => rfl
  | cons c cs ih => simp [List.isPrefixOf, ih]

lemma countOccsL_nil_pat (l : List Char) : countOccsL [] l = l.length + 1 := by
  induction l with
  | nil => rfl
  | cons c rest ih =>
    simp [countOccsL, List.isPrefixOf, ih]
    omega

lemma one_le_countOccsL_suffix (pat x : List Char) :
    1 ≤ countOccsL pat (x ++ pat) := by
  induction x with
  | nil =>
    cases pat with
    | nil => simp [countOccsL, List.isPrefixOf]
    | cons p ps =>
      rw [List.nil_append]
      show 1 ≤ (if (p :: ps).isPrefixOf (p :: ps) then 1 else 0)
        + countOccsL (p :: ps) ps
      rw [isPrefixOf_refl]
      simp
  | cons c x' ih =>
    rw [List.cons_append]
    show 1 ≤ (if pat.isPrefixOf (c :: (x' ++ pat)) then 1 else 0)
      + countOccsL pat (x' ++ pat)
    split <;> omega

lemma pyReplaceAuxL_nil (o : Char) (os new : List Char) (fuel : Nat) :
    pyReplaceAuxL o os new fuel [] = [] := by
  cases fuel <;> rfl

lemma pyReplaceAuxL_unique (o : Char) (os new : List Char) :
    ∀ (root : List Char) (fuel : Nat), (root ++ o :: os).length ≤ fuel →
      countOccsL (o :: os) (root ++ o :: os) = 1 →
      pyReplaceAuxL o os new fuel (root ++ o :: os) = root ++ new := by
  intro root
  induction root with
  | nil =>
    intro fuel hfuel _
    cases fuel with
    | zero => simp at hfuel
    | succ m =>
      simp only [List.nil_append, pyReplaceAuxL, isPrefixOf_refl, if_true]
      rw [List.drop_length, pyReplaceAuxL_nil, List.append_nil]
  | cons c root' ih =>
    intro fuel hfuel hcount
    cases fuel with
    | zero => simp at hfuel
    | succ m =>
      have hsuffix := one_le_countOccsL_suffix (o :: os) root'
      have heq : (c :: root') ++ o :: os = c :: (root' ++ o :: os) := rfl
      rw [heq] at hcount ⊢
      have hcount' : (if (o :: os).isPrefixOf (c :: (root' ++ o :: os)) then 1 else 0)
          + countOccsL (o :: os) (root' ++ o :: os) = 1 := hcount
      have hgoal : pyReplaceAuxL o os new (m + 1) (c :: (root' ++ o :: os))
          = (if (o :: os).isPrefixOf (c :: (root' ++ o :: os)) then
              new ++ pyReplaceAuxL o os new m ((root' ++ o :: os).drop os.length)
            else c :: pyReplaceAuxL o os new m (root' ++ o :: os)) := rfl
      cases hb : (o :: os).isPrefixOf (c :: (root' ++ o :: os)) with
      | true =>
        rw [hb] at hcount'
        simp at hcount'
        omega
      | false =>
        rw [hgoal, hb]
        simp only [Bool.false_eq_true, if_false]
        rw [hb] at hcount'
        simp at hcount'
        have hlen : (root' ++ o :: os).length ≤ m := by
          simp at hfuel ⊢
          omega
        rw [ih m hlen hcount']
        rfl

lemma pyReplaceL_unique (root pat new : List Char)
    (h : countOccsL pat (root ++ pat) = 1) :
    pyReplaceL (root ++ pat) pat new = root ++ new := by
  cases pat with
  | nil =>
    rw [List.append_nil] at h ⊢
    rw [countOccsL_nil_pat] at h
    have hr : root = [] := List.length_eq_zero.mp (by omega)
    subst hr
    simp [pyReplaceL]
  | cons o os =>
    exact pyReplaceAuxL_unique o os new root _ (le_refl _) h

lemma splitextL_concat (l : List Char) :
    (splitextL l).1 ++ (splitextL l).2 = l := by
  unfold splitextL
  cases h : lastIdx '.' l with
  | none => simp
  | some d =>
    simp only
    split
    · simp [List.take_append_drop]
    · simp

/-! ### The claims -/

/-- C1: if both `--show` and `--to-labelme` are set, `main` raises the
fatal flag-conflict error immediately: the trace is empty, so no model is
loaded, no file is enumerated, no inference runs and no output is
produced. -/
theorem spec_c1 (args : Args) (env : Env)
    (ht : args.toLabelme = true) (hs : args.show' = true) :
    main args env = { events := [], error := some flagErrMsg } := by
  simp [main, ht, hs]

theorem spec_c1_witness :
    main argsBoth envA = { events := [], error := some flagErrMsg } :=
  spec_c1 argsBoth envA rfl rfl

/-- C2: with a valid flag combination, if some requested class name is not
among the model's classes, `main` last prints the list of valid classes and
then raises the fatal error naming the (first) offending class; if every
requested name is known, no error is raised. -/
theorem spec_c2 (args : Args) (env : Env)
    (hf : (args.toLabelme && args.show') = false) :
    (∀ bad, firstUnknownClass args.className env.datasetClasses = some bad →
      (main args env).error = some (classErrMsg bad) ∧
      (main args env).events.getLast?
        = some (Event.showDataClasses env.datasetClasses)) ∧
    (firstUnknownClass args.className env.datasetClasses = none →
      (main args env).error = none) := by
  constructor
  · intro bad hbad
    simp [main, hf, hbad, List.getLast?_concat]
  · intro hc
    rw [main_eq args env hf hc]

theorem spec_c2_witness :
    (main argsBadClass envA).error = some (classErrMsg ("bird")) ∧
    (main argsBadClass envA).events.getLast?
      = some (Event.showDataClasses envA.datasetClasses) :=
  (spec_c2 argsBadClass envA (by decide)).1 ("bird") (by decide)

/-- C7: `main` terminates with an error exactly when the two explicit
validation failures occur: the `--show`/`--to-labelme` conflict, or a
requested class name absent from the model's class list.  (Errors of the
external framework are outside the embedding.) -/
theorem spec_c7 (args : Args) (env : Env) :
    (main args env).error.isSome =
      (args.toLabelme && args.show'
        || (firstUnknownClass args.className env.datasetClasses).isSome) := by
  cases hb : (args.toLabelme && args.show') with
  | true => simp [main, hb]
  | false =>
    cases hcc : firstUnknownClass args.className env.datasetClasses with
    | none => rw [main_eq args env hb hcc]; simp [hcc]
    | some bad => simp [main, hb, hcc]

/-- C9: in `--show` mode the trace contains no output-directory creation
and every visualizer invocation carries `out_file = None`, so the script's
own output path writes nothing to disk. -/
theorem spec_c9 (args : Args) (env : Env) (hs : args.show' = true) :
    ∀ e ∈ (main args env).events, visOutFile e = none ∧ isMkdir e = false := by
  intro e he
  cases ht : args.toLabelme with
  | true =>
    simp [main, ht, hs] at he
  | false =>
    have hf : (args.toLabelme && args.show') = false := by simp [ht]
    cases hcc : firstUnknownClass args.className env.datasetClasses with
    | some bad =>
      simp only [main, hf, Bool.false_eq_true, if_false, hcc] at he
      rcases List.mem_append.mp he with hpre | hlast
      · rcases mem_preEvents_show hs hpre with rfl | rfl | rfl | rfl | rfl <;>
          exact ⟨rfl, rfl⟩
      · simp at hlast
        subst hlast
        exact ⟨rfl, rfl⟩
    | none =>
      rw [main_eq args env hf hcc] at he
      rcases List.mem_append.mp he with hpre | hrest
      · rcases mem_preEvents_show hs hpre with rfl | rfl | rfl | rfl | rfl <;>
          exact ⟨rfl, rfl⟩
      · rcases List.mem_cons.mp hrest with rfl | hrest2
        · exact ⟨rfl, rfl⟩
        · rcases List.mem_append.mp hrest2 with hflat | hpost
          · rcases List.mem_flatten.mp hflat with ⟨blk, hblkmem, heblk⟩
            rcases List.mem_map.mp hblkmem with ⟨f, _, rfl⟩
            rcases mem_processFile heblk with rfl | rfl | rfl | rfl | rfl <;>
              simp [visOutFile, isMkdir, outFileFor, hs]
          · simp [postEvents, hs, ht] at hpost

theorem spec_c9_witness :
    visOutFile Event.progressUpdate = none ∧ isMkdir Event.progressUpdate = false :=
  spec_c9 argsShowMode envA rfl Event.progressUpdate (by decide)

/-- C10: the labelme annotation path is the image output path with its
final extension replaced by `.json`, for every path in which the final
extension occurs exactly once as a substring (there the replace-based
derivation and final-extension replacement coincide). -/
theorem spec_c10 (s : String) (h : countOccs (splitext s).2 s = 1) :
    labelmeOut s = (splitext s).1 ++ ".json" := by
  have hconcat : (splitextL s.data).1 ++ (splitextL s.data).2 = s.data :=
    splitextL_concat s.data
  have hcount : countOccsL (splitextL s.data).2
      ((splitextL s.data).1 ++ (splitextL s.data).2) = 1 := by
    rw [hconcat]; exact h
  have hlist := pyReplaceL_unique (splitextL s.data).1 (splitextL s.data).2
    (".json").data hcount
  rw [hconcat] at hlist
  show (⟨pyReplaceL s.data (splitextL s.data).2 (".json").data⟩ : String) = _
  rw [hlist]
  rfl

theorem spec_c10_witness :
    countOccs (splitext ("output/a.png")).2 ("output/a.png") = 1 ∧
    labelmeOut ("output/a.png") = (splitext ("output/a.png")).1 ++ ".json" :=
  ⟨by decide, spec_c10 ("output/a.png") (by decide)⟩

/-- C3: in an error-free run, the output filename used for each enumerated
file is the file's path relative to the input directory with every slash
replaced by an underscore when the input is a directory, and the file's
basename otherwise — both in the visualizer invocation and (joined onto the
output directory) in the labelme annotation path. -/
theorem spec_c3 (args : Args) (env : Env)
    (hf : (args.toLabelme && args.show') = false)
    (hc : firstUnknownClass args.className env.datasetClasses = none) :
    ∀ f ∈ env.files,
      (args.toLabelme = false →
        Event.addDatasample
          (if env.isDir then pyReplace (relpath env.cwd f args.img) ("/") ("_")
           else basename f)
          (env.results f) args.show' (outFileFor args env f) args.scoreThr
          ∈ (main args env).events) ∧
      (args.toLabelme = true →
        Event.labelmeSave
          (labelmeOut (joinPath args.outDir
            (if env.isDir then pyReplace (relpath env.cwd f args.img) ("/") ("_")
             else basename f)))
          ((env.results f).filter fun p => args.scoreThr < p.score) args.className
          ∈ (main args env).events) := by
  intro f hfmem
  rw [main_eq args env hf hc]
  have hname : (if env.isDir then pyReplace (relpath env.cwd f args.img) ("/") ("_")
      else basename f) = filenameFor args env f := rfl
  constructor
  · intro ht
    rw [hname]
    have hblock : Event.addDatasample (filenameFor args env f) (env.results f)
        args.show' (outFileFor args env f) args.scoreThr
        ∈ (processFile args env f).1 := by
      rw [processFile_vis args env f ht]
      simp
    apply List.mem_append_right
    apply List.mem_cons_of_mem
    apply List.mem_append_left
    exact List.mem_flatten.mpr
      ⟨(processFile args env f).1,
        List.mem_map_of_mem (fun f => (processFile args env f).1) hfmem, hblock⟩
  · intro ht
    rw [hname]
    have hs : args.show' = false := by
      rw [ht] at hf
      simpa using hf
    have hblock : Event.labelmeSave
        (labelmeOut (joinPath args.outDir (filenameFor args env f)))
        ((env.results f).filter fun p => args.scoreThr < p.score) args.className
        ∈ (processFile args env f).1 := by
      rw [processFile_labelme args env f ht hs]
      simp
    apply List.mem_append_right
    apply List.mem_cons_of_mem
    apply List.mem_append_left
    exact List.mem_flatten.mpr
      ⟨(processFile args env f).1,
        List.mem_map_of_mem (fun f => (processFile args env f).1) hfmem, hblock⟩

theorem spec_c3_witness :
    Event.labelmeSave
      (labelmeOut (joinPath argsLabelme.outDir
        (if envDir.isDir then
          pyReplace (relpath envDir.cwd ("imgs/a.png") argsLabelme.img) ("/") ("_")
         else basename ("imgs/a.png"))))
      ((envDir.results ("imgs/a.png")).filter fun p => argsLabelme.scoreThr < p.score)
      argsLabelme.className
      ∈ (main argsLabelme envDir).events :=
  (spec_c3 argsLabelme envDir (by decide) (by decide) ("imgs/a.png") (by decide)).2 rfl

/-- C4: in an error-free run, every output event's downstream-retained
predictions are exactly the predictions of some enumerated file whose score
exceeds the single `--score-thr` value — the threshold is applied uniformly
in both the annotation-export path and the visual-rendering path. -/
theorem spec_c4 (args : Args) (env : Env)
    (hf : (args.toLabelme && args.show') = false)
    (hc : firstUnknownClass args.className env.datasetClasses = none) :
    ∀ e ∈ (main args env).events, ∀ ps, retainedDownstream e = some ps →
      ∃ f ∈ env.files, ∀ p : Pred,
        p ∈ ps ↔ p ∈ env.results f ∧ args.scoreThr < p.score := by
  rw [main_eq args env hf hc]
  intro e he ps hps
  rcases List.mem_append.mp he with hpre | hrest
  · rcases mem_preEvents hpre with rfl | rfl | rfl | rfl | rfl | rfl <;>
      simp [retainedDownstream] at hps
  · rcases List.mem_cons.mp hrest with rfl | hrest2
    · simp [retainedDownstream] at hps
    · rcases List.mem_append.mp hrest2 with hflat | hpost
      · rcases List.mem_flatten.mp hflat with ⟨blk, hblkmem, heblk⟩
        rcases List.mem_map.mp hblkmem with ⟨f, hfmem, rfl⟩
        refine ⟨f, hfmem, ?_⟩
        rcases mem_processFile heblk with rfl | rfl | rfl | rfl | rfl
        · simp [retainedDownstream] at hps
        · simp [retainedDownstream] at hps
        · simp [retainedDownstream] at hps
        · simp only [retainedDownstream, Option.some.injEq] at hps
          subst hps
          intro p
          simp [List.mem_filter]
        · simp only [retainedDownstream, Option.some.injEq] at hps
          subst hps
          intro p
          simp [List.mem_filter]
      · rcases mem_postEvents hpost with ⟨m, rfl⟩
        simp [retainedDownstream] at hps

theorem spec_c4_witness :
    ∃ f ∈ envA.files, ∀ p : Pred,
      p ∈ [(⟨0, 1⟩ : Pred)] ↔ p ∈ envA.results f ∧ argsSave.scoreThr < p.score :=
  spec_c4 argsSave envA (by decide) rfl
    (Event.addDatasample ("a.png") [⟨0, 1⟩] false (some ("./output/a.png")) 0)
    (by decide) [⟨0, 1⟩] (by decide)

/-- C5: in an error-free run, exactly one of the two output paths is taken
per image: with `--to-labelme` there is one labelme export per enumerated
file and no visualizer invocation at all; otherwise one visualizer
invocation per file and no labelme export — never both. -/
theorem spec_c5 (args : Args) (env : Env)
    (hf : (args.toLabelme && args.show') = false)
    (hc : firstUnknownClass args.className env.datasetClasses = none) :
    ((main args env).events.countP isLabelmeSave
      = if args.toLabelme then env.files.length else 0) ∧
    ((main args env).events.countP isAddDatasample
      = if args.toLabelme then 0 else env.files.length) := by
  have hpre1 : ∀ e ∈ preEvents args, isLabelmeSave e = false := by
    intro e he
    rcases mem_preEvents he with rfl | rfl | rfl | rfl | rfl | rfl <;> rfl
  have hpre2 : ∀ e ∈ preEvents args, isAddDatasample e = false := by
    intro e he
    rcases mem_preEvents he with rfl | rfl | rfl | rfl | rfl | rfl <;> rfl
  have hpost1 : ∀ e ∈ postEvents args env, isLabelmeSave e = false := by
    intro e he
    rcases mem_postEvents he with ⟨m, rfl⟩
    rfl
  have hpost2 : ∀ e ∈ postEvents args env, isAddDatasample e = false := by
    intro e he
    rcases mem_postEvents he with ⟨m, rfl⟩
    rfl
  constructor
  · rw [countP_main_events isLabelmeSave args env hf hc hpre1 hpost1 rfl
      (if args.toLabelme then 1 else 0) ?_]
    · cases args.toLabelme <;> simp
    · intro f _
      cases ht : args.toLabelme with
      | false =>
        rw [processFile_vis args env f ht]
        simp [isLabelmeSave, List.countP_cons]
      | true =>
        have hs : args.show' = false := by rw [ht] at hf; simpa using hf
        rw [processFile_labelme args env f ht hs]
        simp [isLabelmeSave, List.countP_cons]
  · rw [countP_main_events isAddDatasample args env hf hc hpre2 hpost2 rfl
      (if args.toLabelme then 0 else 1) ?_]
    · cases args.toLabelme <;> simp
    · intro f _
      cases ht : args.toLabelme with
      | false =>
        rw [processFile_vis args env f ht]
        simp [isAddDatasample, List.countP_cons]
      | true =>
        have hs : args.show' = false := by rw [ht] at hf; simpa using hf
        rw [processFile_labelme args env f ht hs]
        simp [isAddDatasample, List.countP_cons]

theorem spec_c5_witness :
    (main argsSave envA).events.countP isLabelmeSave
      = if argsSave.toLabelme then envA.files.length else 0 :=
  (spec_c5 argsSave envA (by decide) rfl).1

/-- C6 as claimed is false: in `--show` mode the run exits successfully but
prints no completion message at all (the concrete run below has no error
and zero `print_log` events). -/
theorem spec_c6_counterexample :
    (main argsShowMode envA).error = none ∧
    (main argsShowMode envA).events.countP isPrintLog = 0 := by
  decide

/-- C6 (amended): whenever the flag combination is valid and every
requested class name is known, the program exits successfully; when neither
`--show` nor `--to-labelme` is set, and when `--to-labelme` is set, it ends
by printing a completion message naming the output location; in `--show`
mode no completion message is printed. -/
theorem spec_c6 (args : Args) (env : Env)
    (hf : (args.toLabelme && args.show') = false)
    (hc : firstUnknownClass args.className env.datasetClasses = none) :
    (main args env).error = none ∧
    (args.show' = false → args.toLabelme = false →
      (main args env).events.getLast? =
        some (Event.printLog
          ("\nResults have been saved at " ++ abspath env.cwd args.outDir))) ∧
    (args.toLabelme = true →
      (main args env).events.getLast? =
        some (Event.printLog
          ("\nLabelme format label files had all been saved in " ++ args.outDir))) ∧
    (args.show' = true → (main args env).events.countP isPrintLog = 0) := by
  rw [main_eq args env hf hc]
  refine ⟨rfl, ?_, ?_, ?_⟩
  · intro hs ht
    have hpost : postEvents args env =
        [Event.printLog ("\nResults have been saved at " ++ abspath env.cwd args.outDir)] := by
      simp [postEvents, hs, ht]
    rw [hpost]
    rw [show preEvents args
        ++ Event.progressInit env.files.length
        :: ((env.files.map fun f => (processFile args env f).1).flatten
            ++ [Event.printLog ("\nResults have been saved at " ++ abspath env.cwd args.outDir)])
      = (preEvents args
          ++ Event.progressInit env.files.length
          :: (env.files.map fun f => (processFile args env f).1).flatten)
        ++ [Event.printLog ("\nResults have been saved at " ++ abspath env.cwd args.outDir)]
      from by simp]
    exact List.getLast?_concat _
  · intro ht
    have hpost : postEvents args env =
        [Event.printLog ("\nLabelme format label files had all been saved in " ++ args.outDir)] := by
      simp [postEvents, ht]
    rw [hpost]
    rw [show preEvents args
        ++ Event.progressInit env.files.length
        :: ((env.files.map fun f => (processFile args env f).1).flatten
            ++ [Event.printLog ("\nLabelme format label files had all been saved in " ++ args.outDir)])
      = (preEvents args
          ++ Event.progressInit env.files.length
          :: (env.files.map fun f => (processFile args env f).1).flatten)
        ++ [Event.printLog ("\nLabelme format label files had all been saved in " ++ args.outDir)]
      from by simp]
    exact List.getLast?_concat _
  · intro hs
    have ht : args.toLabelme = false := by
      rw [hs] at hf
      simpa using hf
    rw [← main_eq args env hf hc]
    rw [countP_main_events isPrintLog args env hf hc ?_ ?_ rfl 0 ?_]
    · simp
    · intro e he
      rcases mem_preEvents he with rfl | rfl | rfl | rfl | rfl | rfl <;> rfl
    · intro e he
      simp [postEvents, hs, ht] at he
    · intro f _
      rw [processFile_vis args env f ht]
      simp [isPrintLog, List.countP_cons]

theorem spec_c6_witness : (main argsSave envA).error = none :=
  (spec_c6 argsSave envA (by decide) rfl).1

/-- C8: in an error-free run the progress bar is initialized with the total
number of enumerated files and updated exactly once per file inside the
loop: the whole trace contains as many updates as files, and the loop
restricted to the first `k` files contains exactly `k` updates. -/
theorem spec_c8 (args : Args) (env : Env)
    (hf : (args.toLabelme && args.show') = false)
    (hc : firstUnknownClass args.className env.datasetClasses = none) :
    Event.progressInit env.files.length ∈ (main args env).events ∧
    (main args env).events.countP isProgressUpdate = env.files.length ∧
    ∀ k, k ≤ env.files.length →
      ((runLoop args env (env.files.take k)).1).countP isProgressUpdate = k := by
  refine ⟨?_, ?_, ?_⟩
  · rw [main_eq args env hf hc]
    apply List.mem_append_right
    exact List.mem_cons_self _ _
  · rw [countP_main_events isProgressUpdate args env hf hc ?_ ?_ rfl 1
      (fun f _ => countP_update_block args env f)]
    · simp
    · intro e he
      rcases mem_preEvents he with rfl | rfl | rfl | rfl | rfl | rfl <;> rfl
    · intro e he
      rcases mem_postEvents he with ⟨m, rfl⟩
      rfl
  · intro k hk
    rw [runLoop_eq args env hf]
    rw [countP_flatten_const isProgressUpdate 1 _
      (by intro l hl
          rcases List.mem_map.mp hl with ⟨f, _, rfl⟩
          exact countP_update_block args env f)]
    simp [List.length_take]
    omega

theorem spec_c8_witness :
    Event.progressInit envA.files.length ∈ (main argsSave envA).events :=
  (spec_c8 argsSave envA (by decide) rfl).1

end ImageDemo
